import Mathlib

/-!
Verification of the contact-importer repository: a shallow embedding of the
phone-number normalizer (src/src/phone_parser.py) and of the batch import
orchestrator (src/src/contact_manager.py together with the transport wrapper
in src/src/telegram_client.py), with theorems settling the specification
claims about them.

Python strings are modelled as `List Char`; machine integers do not occur
(all counts are small non-negative integers, modelled as `Nat`); the float
`success_rate` is modelled as `ℚ`.  Fallible calls are modelled with
`Except`.  The external `phonenumbers` E.164 engine and the remote Telegram
service are collaborators whose code is not part of the repository: the
engine is abstracted as a `PhoneEngine` record plus a concrete model
(`phonenumbersModel`, modelled from the spec), and the remote service as a
stream of `TransportResp` responses.
-/

abbrev Str := List Char

/-- Decimal digit string of a natural number, as in Python `str(n)` /
`f"{n}"` for non-negative `n`. -/
def natToStr (n : Nat) : Str := Nat.toDigits 10 n

/-- Python `str.strip()`: remove leading and trailing whitespace. -/
def pyStrip (s : Str) : Str :=
  ((s.dropWhile Char.isWhitespace).reverse.dropWhile Char.isWhitespace).reverse

/-- Python `s.replace(c, '')` for a single character `c`: drop every
occurrence of `c`. -/
def removeChar (s : Str) (c : Char) : Str := s.filter (fun x => decide (x ≠ c))

/-! ## Phone parser configuration (src/src/config.py)

The repository contains no `config.yaml`, so `Config._load_config` falls
back to `Config._get_default_config()`.  The fields below are the ones
`PhoneParser` reads: `phone_formatting.remove_chars`,
`phone_formatting.auto_add_country_code`, and the `country_codes` table
(absent from the default configuration, hence empty, which makes
`get_country_code` return the empty string). -/

structure ParserConfig where
  removeChars : List Char
  autoAddCountryCode : Bool
  countryCodes : List (Str × Str)
deriving DecidableEq

/-- The default configuration from `Config._get_default_config()`. -/
def defaultConfig : ParserConfig :=
  { removeChars := ['-', '(', ')', ' ', '.']
    autoAddCountryCode := true
    countryCodes := [] }

/-- `Config.get_country_code`: look the upper-cased country up in the
`country_codes` table, returning `''` when absent. -/
def getCountryCode (cfg : ParserConfig) (country : Str) : Str :=
  match cfg.countryCodes.lookup (country.map Char.toUpper) with
  | some cc => cc
  | none => []

/-- `PhoneParser._clean_phone_number`: strip configured characters, then the
auto-detect international heuristic (prepend `+` to a 11-digit string
starting with `1` or a `≥ 11`-character string starting with `2`-`9` when it
is at least 10 characters long and has no `+`), then the Hong-Kong `82102`
special case, else the `auto_add_country_code` branch. -/
def cleanPhoneNumber (cfg : ParserConfig) (defaultCountry : Str) (phone0 : Str) : Str :=
  let p1 := cfg.removeChars.foldl removeChar phone0
  let p2 :=
    if ¬ (['+'].isPrefixOf p1) ∧ 10 ≤ p1.length ∧
        ((['1'].isPrefixOf p1 ∧ p1.length = 11) ∨
         ((match p1 with
           | c :: _ => decide ('2' ≤ c ∧ c ≤ '9')
           | [] => false) = true ∧ 11 ≤ p1.length))
    then '+' :: p1 else p1
  if ("82102".toList).isPrefixOf p2 then
    (if p2.length = 12 then "+852 ".toList ++ p2.drop 5 else p2)
  else if cfg.autoAddCountryCode then
    (if ¬ (['+'].isPrefixOf p2) then
      (let cc := getCountryCode cfg defaultCountry
       if cc ≠ [] then cc ++ p2 else p2)
     else p2)
  else p2

/-! ## The E.164 engine interface (the external `phonenumbers` collaborator) -/

/-- The parsed-number object: the library's `PhoneNumber` proto, of which the
repository reads `country_code` and (through validation and formatting) the
national number. -/
structure ParsedNumber where
  countryCode : Nat
  nationalNumber : Str
deriving DecidableEq

/-- The library's `NumberParseException`, carrying the text produced by
`str(e)`. -/
structure NumberParseError where
  msg : Str
deriving DecidableEq

/-- The slice of the `phonenumbers` interface used by `parse_number`:
`parse`, `is_valid_number`, and E164 `format_number`.  `parse` is the only
fallible operation; its documented failure mode is `NumberParseException`. -/
structure PhoneEngine where
  parse : Str → Option Str → Except NumberParseError ParsedNumber
  isValidNumber : ParsedNumber → Bool
  formatE164 : ParsedNumber → Str

/-- The `PhoneNumber` dataclass of the phone parser module: `raw`,
`formatted`, `country_code`, `is_valid`, `error_message`. -/
structure PhoneNumber where
  raw : Str
  formatted : Str
  country_code : Str
  is_valid : Bool
  error_message : Option Str := none
deriving DecidableEq

/-- The speculative `+`-probe of `parse_number` (lines 67-75): when the
cleaned string has no `+` and is at least 10 characters, try parsing with a
`+` prefix and adopt it if the engine validates it; any probe failure is
swallowed by the bare `except`. -/
def probedClean (engine : PhoneEngine) (cfg : ParserConfig) (d : Str) (s : Str) : Str :=
  let cleaned := cleanPhoneNumber cfg d (pyStrip s)
  if ¬ (['+'].isPrefixOf cleaned) ∧ 10 ≤ cleaned.length then
    match engine.parse ('+' :: cleaned) none with
    | .ok t => if engine.isValidNumber t then '+' :: cleaned else cleaned
    | .error _ => cleaned
  else cleaned

/-- The `try`-block body of `parse_number`: parse the (probed) cleaned
string with the default country as hint, and build the valid or invalid
record; an engine exception propagates out of the body. -/
def parseNumberBody (engine : PhoneEngine) (cfg : ParserConfig) (d : Str) (s : Str) :
    Except NumberParseError PhoneNumber :=
  let original := pyStrip s
  let cleaned2 := probedClean engine cfg d s
  match engine.parse cleaned2 (some d) with
  | .error e => .error e
  | .ok parsed =>
    if engine.isValidNumber parsed then
      .ok { raw := original
            formatted := engine.formatE164 parsed
            country_code := '+' :: natToStr parsed.countryCode
            is_valid := true }
    else
      .ok { raw := original
            formatted := cleaned2
            country_code := []
            is_valid := false
            error_message := some ("Invalid phone number format".toList) }

/-- `parse_number` with the `except NumberParseException` handler made
explicit: the handler converts the exception into an invalid record carrying
`str(e)`. -/
def parseNumberChecked (engine : PhoneEngine) (cfg : ParserConfig) (d : Str) (s : Str) :
    Except NumberParseError PhoneNumber :=
  match parseNumberBody engine cfg d s with
  | .ok r => .ok r
  | .error e =>
    .ok { raw := pyStrip s
          formatted := probedClean engine cfg d s
          country_code := []
          is_valid := false
          error_message := some e.msg }

/-- `PhoneParser.parse_number`: the total function the caller sees. -/
def parseNumber (engine : PhoneEngine) (cfg : ParserConfig) (d : Str) (s : Str) : PhoneNumber :=
  match parseNumberBody engine cfg d s with
  | .ok r => r
  | .error e =>
    { raw := pyStrip s
      formatted := probedClean engine cfg d s
      country_code := []
      is_valid := false
      error_message := some e.msg }

/-! ## A concrete E.164 engine model

Modelled from the spec: the `phonenumbers` library is an external
collaborator whose code is not under src/; spec §4.2 step 6 describes it as
E.164 validation — country code plus national significant number length and
pattern per assigned ranges, with the default region used as hint when no
`+` country code is present.  The model covers the numbering plans the
claims exercise: Hong Kong (+852, 8-digit national numbers starting
2/3/5/6/9), South Korea (+82, 9-10 digit national numbers starting 1), and
the NANP (+1, 10-digit national numbers starting 2-9).  Country-code
detection takes the longest assigned prefix, and parse failures carry the
library's exception texts. -/

/-- Hong Kong national significant number rule. -/
def hkRule (s : Str) : Bool :=
  s.all Char.isDigit && decide (s.length = 8) &&
  (match s with
   | c :: _ => decide (c = '2' ∨ c = '3' ∨ c = '5' ∨ c = '6' ∨ c = '9')
   | [] => false)

/-- South Korea national significant number rule (mobile ranges). -/
def krRule (s : Str) : Bool :=
  s.all Char.isDigit && decide (s.length = 9 ∨ s.length = 10) &&
  (match s with
   | c :: _ => decide (c = '1')
   | [] => false)

/-- NANP national significant number rule. -/
def nanpRule (s : Str) : Bool :=
  s.all Char.isDigit && decide (s.length = 10) &&
  (match s with
   | c :: _ => decide ('2' ≤ c ∧ c ≤ '9')
   | [] => false)

/-- Modelled from the spec: the national-format side of `phonenumbers.parse`
— all digits form the national number, attributed to the default region's
country code. -/
def modelParseNational (t : Str) (defaultRegion : Option Str) :
    Except NumberParseError ParsedNumber :=
  let ds := t.filter Char.isDigit
  if ds = [] then
    .error ⟨"(1) The string supplied did not seem to be a phone number.".toList⟩
  else
    match defaultRegion with
    | some r =>
      if r = "HK".toList then .ok ⟨852, ds⟩
      else if r = "KR".toList then .ok ⟨82, ds⟩
      else if r = "US".toList then .ok ⟨1, ds⟩
      else .error ⟨"(0) Missing or invalid default region.".toList⟩
    | none => .error ⟨"(0) Missing or invalid default region.".toList⟩

/-- Modelled from the spec: `phonenumbers.parse`.  Scan to the first `+` or
digit, split off the longest assigned country code after an explicit `+`,
otherwise attribute all digits to the default region's country code. -/
def modelParse (s : Str) (defaultRegion : Option Str) :
    Except NumberParseError ParsedNumber :=
  let t := s.dropWhile (fun c => decide (¬ (c = '+' ∨ c.isDigit = true)))
  match t with
  | c :: rest =>
    if c = '+' then
      let ds := rest.filter Char.isDigit
      if ("852".toList).isPrefixOf ds then .ok ⟨852, ds.drop 3⟩
      else if ("82".toList).isPrefixOf ds then .ok ⟨82, ds.drop 2⟩
      else if ("1".toList).isPrefixOf ds then .ok ⟨1, ds.drop 1⟩
      else .error ⟨"(0) Could not interpret numbers after plus-sign.".toList⟩
    else modelParseNational (c :: rest) defaultRegion
  | [] => modelParseNational [] defaultRegion

/-- Modelled from the spec: `phonenumbers.is_valid_number` — the national
number must match its country code's assigned pattern. -/
def modelIsValid (p : ParsedNumber) : Bool :=
  if p.countryCode = 852 then hkRule p.nationalNumber
  else if p.countryCode = 82 then krRule p.nationalNumber
  else if p.countryCode = 1 then nanpRule p.nationalNumber
  else false

/-- Modelled from the spec: E164 formatting `+<countrycode><nationalnumber>`. -/
def modelFormat (p : ParsedNumber) : Str :=
  '+' :: (natToStr p.countryCode ++ p.nationalNumber)

/-- The concrete engine model. -/
def phonenumbersModel : PhoneEngine :=
  { parse := modelParse
    isValidNumber := modelIsValid
    formatE164 := modelFormat }

/-- The spec's E.164 shape `^\+[1-9]\d\x7b6,14\x7d$`: a `+`, a leading digit
`1`-`9`, and 7 to 15 digits in total. -/
def isE164 (s : Str) : Bool :=
  match s with
  | a :: c :: rest =>
    decide (a = '+') && decide ('1' ≤ c ∧ c ≤ '9') && (c :: rest).all Char.isDigit &&
    decide (7 ≤ rest.length + 1 ∧ rest.length + 1 ≤ 15)
  | _ => false

/-! ## Batch chunking

Python's `for i in range(0, len(l), batch_size): batch = l[i:i+batch_size]`
slicing loop, used both by `ContactManager.import_from_file` and by
`TelegramContactManager.add_contacts_bulk`.  A fuel parameter (initialised
to the list length) keeps the recursion structural; with a positive step the
fuel is never exhausted. -/

def pyChunksAux (bs : Nat) : Nat → List α → List (List α)
  | _, [] => []
  | 0, _ :: _ => []
  | fuel + 1, x :: xs => (x :: xs).take bs :: pyChunksAux bs fuel ((x :: xs).drop bs)

/-- Ordered slices of at most `bs` elements; `bs = 0` never occurs in the
code (Python `range` would reject a zero step). -/
def pyChunks (bs : Nat) (l : List α) : List (List α) :=
  if bs = 0 then [] else pyChunksAux bs l.length l

/-! ## Transport layer (src/src/telegram_client.py) -/

/-- Outcome of one `ImportContactsRequest` wire call: a normal result (the
`imported` entries, read downstream through their phone field, plus the
`retry_contacts` count), a `FloodWaitError` carrying `seconds`, or any other
exception carrying its text. -/
inductive TransportResp where
  | ok (imported : List Str) (retryContacts : Nat)
  | floodWait (seconds : Nat)
  | exc (msg : Str)

/-- The `InputPhoneContact` payload entries built by `_add_contacts_batch`:
client ids are positional, phones lose their `+`, and the display name is
`"<np> <last 4 of formatted>"`. -/
structure InputPhoneContact where
  client_id : Nat
  phone : Str
  first_name : Str
  last_name : Str
deriving DecidableEq

/-- Python `s[-4:]`. -/
def lastChars (n : Nat) (l : Str) : Str := l.drop (l.length - n)

def buildContacts (np : Str) (phones : List PhoneNumber) : List InputPhoneContact :=
  phones.enum.map (fun ip =>
    ⟨ip.1, ip.2.formatted.filter (fun c => decide (c ≠ '+')),
     np ++ ' ' :: lastChars 4 ip.2.formatted, []⟩)

/-- The per-batch result dictionary of `_add_contacts_batch`. -/
structure BatchResult where
  successful : Nat
  failed : Nat
  errors : List Str
  imported_contacts : List Str
deriving DecidableEq

def rateLimitMsg (n : Nat) : Str :=
  "Rate limited: wait ".toList ++ natToStr n ++ " seconds".toList

def retryMsg (n : Nat) : Str := natToStr n ++ " contacts need retry".toList

def importFailedMsg : Str := "Import failed".toList

/-- `_add_contacts_batch` once the client is connected: issue the request
and translate the three outcomes, exactly as its `try`/`except` arms do.
The `"bot"` substring test on the lower-cased text reproduces the error
rewording of the generic handler. -/
def connectedBatchResult (np : Str) (batch : List PhoneNumber) (resp : TransportResp) :
    BatchResult :=
  let contacts := buildContacts np batch
  match resp with
  | .ok imported retry =>
    ⟨imported.length, contacts.length - imported.length,
     if retry ≠ 0 then [retryMsg retry] else [], imported⟩
  | .floodWait s => ⟨0, contacts.length, [rateLimitMsg s], []⟩
  | .exc m =>
    ⟨0, contacts.length,
     [if decide (List.IsInfix ("bot".toList) (m.map Char.toLower)) then
        "Bot session detected - cannot import contacts. Please use a USER account.".toList
      else m], []⟩

/-- Observable actions of a run: a wire import call carrying its batch of
records, or an `asyncio.sleep` of a number of seconds. -/
inductive Event where
  | call (batch : List PhoneNumber)
  | sleep (seconds : Nat)
deriving DecidableEq

/-- `_add_contacts_batch`: returns early with a "Client not connected"
result when disconnected (no wire call), else performs the `k`-th wire call.
Threads the wire-call counter. -/
def addContactsBatch (connected : Bool) (resps : Nat → TransportResp) (k : Nat)
    (np : Str) (batch : List PhoneNumber) : BatchResult × List Event × Nat :=
  if connected then
    (connectedBatchResult np batch (resps k), [Event.call batch], k + 1)
  else
    (⟨0, batch.length, ["Client not connected".toList], []⟩, [], k)

/-- Accumulator of `add_contacts_bulk`'s merge loop. -/
structure BulkAcc where
  successful : Nat
  failed : Nat
  errors : List Str
  imported : List Str
  evs : List Event
  k : Nat
deriving DecidableEq

/-- The batch loop of `add_contacts_bulk`: one `_add_contacts_batch` per
chunk, merged results, and `asyncio.sleep(1)` between chunks
(`if i + batch_size < len(valid_numbers)`). -/
def bulkLoop (connected : Bool) (resps : Nat → TransportResp) (np : Str)
    (bs total : Nat) : List (List PhoneNumber) → Nat → Nat → BulkAcc
  | [], _, k => ⟨0, 0, [], [], [], k⟩
  | b :: rest, i, k =>
    let step := addContactsBatch connected resps k np b
    let slp := if i + bs < total then [Event.sleep 1] else []
    let tail := bulkLoop connected resps np bs total rest (i + bs) step.2.2
    ⟨step.1.successful + tail.successful, step.1.failed + tail.failed,
     step.1.errors ++ tail.errors, step.1.imported_contacts ++ tail.imported,
     step.2.1 ++ slp ++ tail.evs, tail.k⟩

/-- The aggregated result dictionary of `add_contacts_bulk`. -/
structure BulkResult where
  total_attempted : Nat
  successful : Nat
  failed : Nat
  errors : List Str
  imported_contacts : List Str
deriving DecidableEq

/-- `TelegramContactManager.add_contacts_bulk`: raises when the client is
missing or unauthorized, else filters valid numbers, chunks them and merges
the per-batch results. -/
def addContactsBulk (authorized connected : Bool) (resps : Nat → TransportResp)
    (k : Nat) (phones : List PhoneNumber) (bs : Nat) (np : Str) :
    Except Str (BulkResult × List Event × Nat) :=
  if authorized then
    let valid := phones.filter (fun p => p.is_valid)
    let a := bulkLoop connected resps np bs valid.length (pyChunks bs valid) 0 k
    .ok (⟨valid.length, a.successful, a.failed, a.errors, a.imported⟩, a.evs, a.k)
  else .error ("Not connected or not authorized".toList)

/-! ## Orchestrator (src/src/contact_manager.py) -/

/-- The `ContactOperation` dataclass; the wall-clock `timestamp` field is
not modelled. -/
structure ContactOperation where
  phone : PhoneNumber
  success : Bool
  error_message : Option Str
deriving DecidableEq

/-- The per-record ledger entry `import_from_file` logs after a batch
returns: success iff the record's `formatted` appears among the imported
contacts' phones, with the generic "Import failed" reason otherwise. -/
def opOf (imported : List Str) (p : PhoneNumber) : ContactOperation :=
  if p.formatted ∈ imported then ⟨p, true, none⟩
  else ⟨p, false, some importFailedMsg⟩

/-- Accumulator of the `import_from_file` batch loop. -/
structure LoopAcc where
  succ : Nat
  fail : Nat
  errs : List Str
  ops : List ContactOperation
  evs : List Event
  k : Nat
deriving DecidableEq

/-- The batch loop of `import_from_file` (lines 87-126): each outer batch is
handed to `_process_batch`, which forwards it to `add_contacts_bulk` with
that method's defaults (`batch_size = 50`, `name_prefix = "Contact"`); on a
normal return the totals are merged, one ledger entry per member is logged
and `asyncio.sleep(2)` runs between batches; on an exception the whole batch
is counted failed, a `"Batch <n>: <e>"` error is recorded and every member
is logged with the exception text. -/
def importLoop (authorized connected : Bool) (resps : Nat → TransportResp)
    (bs total : Nat) : List (List PhoneNumber) → Nat → Nat → Nat → LoopAcc
  | [], _, _, k => ⟨0, 0, [], [], [], k⟩
  | b :: rest, i, bnum, k =>
    match addContactsBulk authorized connected resps k b 50 ("Contact".toList) with
    | .ok res =>
      let slp := if i + bs < total then [Event.sleep 2] else []
      let tail := importLoop authorized connected resps bs total rest (i + bs) (bnum + 1) res.2.2
      ⟨res.1.successful + tail.succ, res.1.failed + tail.fail,
       res.1.errors ++ tail.errs,
       b.map (opOf res.1.imported_contacts) ++ tail.ops,
       res.2.1 ++ slp ++ tail.evs, tail.k⟩
    | .error e =>
      let tail := importLoop authorized connected resps bs total rest (i + bs) (bnum + 1) k
      ⟨tail.succ, b.length + tail.fail,
       ("Batch ".toList ++ natToStr bnum ++ ": ".toList ++ e) :: tail.errs,
       b.map (fun p => ⟨p, false, some e⟩) ++ tail.ops, tail.evs, tail.k⟩

/-- The statistics dictionary of `PhoneParser.get_stats`. -/
structure Stats where
  total : Nat
  valid : Nat
  invalid : Nat
  success_rate : ℚ
  country_codes : List (Str × Nat)
deriving DecidableEq

/-- Insertion-ordered counter bump, as a Python dict `d[k] = d.get(k,0)+1`. -/
def bumpCC : List (Str × Nat) → Str → List (Str × Nat)
  | [], cc => [(cc, 1)]
  | (k, v) :: rest, cc =>
    if k = cc then (k, v + 1) :: rest else (k, v) :: bumpCC rest cc

def getStats (l : List PhoneNumber) : Stats :=
  let total := l.length
  let valid := (l.filter (fun p => p.is_valid)).length
  ⟨total, valid, total - valid,
   if total ≠ 0 then (valid : ℚ) / (total : ℚ) * 100 else 0,
   l.foldl (fun m p =>
     if p.is_valid = true ∧ p.country_code ≠ [] then bumpCC m p.country_code else m) []⟩

/-- The final statistics dictionary of `import_from_file`: the parse stats
with `attempted`/`successful`/`failed` added and `success_rate` overwritten
by the import rate. -/
structure FinalStats where
  total : Nat
  valid : Nat
  invalid : Nat
  country_codes : List (Str × Nat)
  attempted : Nat
  successful : Nat
  failed : Nat
  success_rate : ℚ
deriving DecidableEq

/-- A Telegram contact as seen by `get_existing_contacts`: it may or may not
have a (truthy) phone attribute. -/
structure TContact where
  phone : Option Str
deriving DecidableEq

/-- `TelegramContactManager.get_existing_contacts`: collect `f"+X"` for every
contact with a non-empty phone; on any exception return the empty list. -/
def getExistingContacts : Except Str (List TContact) → List Str
  | .error _ => []
  | .ok cs => cs.filterMap (fun c =>
      match c.phone with
      | some p => if p ≠ [] then some ('+' :: p) else none
      | none => none)

/-- The result dictionary of `import_from_file`.  Different return branches
carry different keys, hence the `Option` fields: `stats` is the parse-stage
dictionary (absent on file-parse failure, where the code returns the empty
dictionary), `fullStats` the final import statistics. -/
structure RunResult where
  success : Bool
  error : Option Str := none
  message : Option Str := none
  stats : Option Stats := none
  fullStats : Option FinalStats := none
  errors : Option (List Str) := none
  operations : Option (List ContactOperation) := none
deriving DecidableEq

/-- The collaborators of one `import_from_file` run: the file-parse outcome,
the contact-list lookup outcome, the client connection/authorization state,
and the stream of wire-call responses. -/
structure Env where
  parseResult : Except Str (List PhoneNumber)
  lookup : Except Str (List TContact)
  connected : Bool
  authorized : Bool
  resps : Nat → TransportResp

/-- `ContactManager.import_from_file` on a fresh manager (empty operations
log, so the final `operations_log[-len(valid_numbers):]` slice is exactly the
ops logged by this run), returning the result dictionary and the observable
event trace. -/
def importFromFile (env : Env) (skip_existing : Bool) (batch_size : Nat) (np : Str) :
    RunResult × List Event :=
  match env.parseResult with
  | .error e => ({ success := false, error := some e }, [])
  | .ok phone_numbers =>
    let st := getStats phone_numbers
    let valid := phone_numbers.filter (fun p => p.is_valid)
    if valid = [] then
      ({ success := false, error := some ("No valid phone numbers found".toList),
         stats := some st }, [])
    else
      let valid2 :=
        if skip_existing then
          valid.filter (fun p => decide (p.formatted ∉ getExistingContacts env.lookup))
        else valid
      if valid2 = [] then
        ({ success := true, message := some ("All contacts already exist".toList),
           stats := some st, operations := some [] }, [])
      else
        let acc := importLoop env.authorized env.connected env.resps batch_size
          valid2.length (pyChunks batch_size valid2) 0 1 0
        ({ success := decide (0 < acc.succ),
           fullStats := some ⟨st.total, st.valid, st.invalid, st.country_codes,
             valid2.length, acc.succ, acc.fail,
             if valid2.length ≠ 0 then (acc.succ : ℚ) / (valid2.length : ℚ) * 100 else 0⟩,
           errors := some acc.errs,
           operations := some acc.ops }, acc.evs)

/-- The batches of the wire import calls appearing in a trace. -/
def callsOf (evs : List Event) : List (List PhoneNumber) :=
  evs.filterMap (fun e => match e with | .call b => some b | .sleep _ => none)

/-- The simple shape taken by the `import_from_file` batch loop when the
client is connected and authorized and every chunk is a non-empty batch of
at most 50 valid records (so that the inner `add_contacts_bulk` re-chunking
is the identity): one wire call per chunk, consuming consecutive responses,
with the 2-second pacing sleep after every non-final chunk. -/
def goodLoopSpec (resps : Nat → TransportResp) (bs total : Nat) :
    List (List PhoneNumber) → Nat → Nat → LoopAcc
  | [], _, k => ⟨0, 0, [], [], [], k⟩
  | c :: cs, i, k =>
    let br := connectedBatchResult ("Contact".toList) c (resps k)
    let tail := goodLoopSpec resps bs total cs (i + bs) (k + 1)
    ⟨br.successful + tail.succ, br.failed + tail.fail, br.errors ++ tail.errs,
     c.map (opOf br.imported_contacts) ++ tail.ops,
     Event.call c :: ((if i + bs < total then [Event.sleep 2] else []) ++ tail.evs),
     tail.k⟩

/-! ## Concrete run fixtures used by closed theorems -/

/-- A concrete valid record, as produced by the normalizer for a Hong Kong
number. -/
def tRec : PhoneNumber :=
  ⟨"r".toList, "+85221234567".toList, "+852".toList, true, none⟩

/-- Responses for a three-batch run whose second wire call is rate limited
with `waitSeconds = 5`. -/
def cexC2Resps (k : Nat) : TransportResp :=
  if k = 1 then .floodWait 5 else .ok [] 0

def cexC2Env : Env := ⟨.ok [tRec, tRec, tRec], .ok [], true, true, cexC2Resps⟩

/-- A single-record run whose only wire call raises a non-rate-limit
transport exception. -/
def cexC6Env : Env :=
  ⟨.ok [tRec], .ok [], true, true, fun _ => .exc ("Connection reset".toList)⟩

/-- A run where the only valid candidate is already an existing contact. -/
def c10Env : Env :=
  ⟨.ok [tRec], .ok [⟨some ("85221234567".toList)⟩], true, true, fun _ => .ok [] 0⟩

def c4Records : List PhoneNumber := List.replicate 120 tRec

def c4Env : Env := ⟨.ok c4Records, .ok [], true, true, fun _ => .ok [] 0⟩

/-- A run whose existing-contacts lookup raises. -/
def c8Env : Env := ⟨.ok [tRec], .error ("boom".toList), true, true, fun _ => .ok [] 0⟩

/-! ## Chunking lemmas -/

theorem pyChunksAux_nil (bs f : Nat) : pyChunksAux bs f ([] : List α) = [] := by
  cases f <;> rfl

theorem pyChunksAux_congr (bs : Nat) (hbs : 1 ≤ bs) :
    ∀ f f' (l : List α), l.length ≤ f → l.length ≤ f' →
      pyChunksAux bs f l = pyChunksAux bs f' l := by
  intro f
  induction f with
  | zero =>
    intro f' l hf _
    have : l = [] := List.eq_nil_of_length_eq_zero (by omega)
    subst this
    rw [pyChunksAux_nil, pyChunksAux_nil]
  | succ g ih =>
    intro f' l hf hf'
    cases l with
    | nil => rw [pyChunksAux_nil, pyChunksAux_nil]
    | cons x xs =>
      cases f' with
      | zero => simp at hf'
      | succ g' =>
        show (x :: xs).take bs :: pyChunksAux bs g ((x :: xs).drop bs) =
          (x :: xs).take bs :: pyChunksAux bs g' ((x :: xs).drop bs)
        congr 1
        apply ih
        · simp only [List.length_drop, List.length_cons]
          simp only [List.length_cons] at hf
          omega
        · simp only [List.length_drop, List.length_cons]
          simp only [List.length_cons] at hf'
          omega

theorem pyChunks_nil (bs : Nat) : pyChunks bs ([] : List α) = [] := by
  unfold pyChunks
  split <;> [rfl; rw [pyChunksAux_nil]]

theorem pyChunks_cons (bs : Nat) (hbs : 1 ≤ bs) (l : List α) (hl : l ≠ []) :
    pyChunks bs l = l.take bs :: pyChunks bs (l.drop bs) := by
  obtain ⟨x, xs, rfl⟩ := List.exists_cons_of_ne_nil hl
  unfold pyChunks
  rw [if_neg (by omega), if_neg (by omega)]
  show (x :: xs).take bs :: pyChunksAux bs xs.length ((x :: xs).drop bs) = _
  congr 1
  apply pyChunksAux_congr bs hbs
  · simp only [List.length_drop, List.length_cons]
    omega
  · exact le_rfl

theorem pyChunks_flatten (bs : Nat) (hbs : 1 ≤ bs) (l : List α) :
    (pyChunks bs l).flatten = l := by
  suffices h : ∀ n (l : List α), l.length ≤ n → (pyChunks bs l).flatten = l from
    h l.length l le_rfl
  intro n
  induction n with
  | zero =>
    intro l hl
    have : l = [] := List.eq_nil_of_length_eq_zero (by omega)
    subst this
    rw [pyChunks_nil]
    rfl
  | succ n ih =>
    intro l hl
    cases l with
    | nil => rw [pyChunks_nil]; rfl
    | cons x xs =>
      rw [pyChunks_cons bs hbs _ (by simp)]
      rw [List.flatten_cons, ih _ (by simp only [List.length_drop, List.length_cons] at *; omega)]
      exact List.take_append_drop bs (x :: xs)

theorem pyChunks_mem (bs : Nat) (hbs : 1 ≤ bs) (l c : List α)
    (hc : c ∈ pyChunks bs l) : c ≠ [] ∧ c.length ≤ bs ∧ ∀ p ∈ c, p ∈ l := by
  suffices h : ∀ n (l : List α), l.length ≤ n → ∀ c, c ∈ pyChunks bs l →
      c ≠ [] ∧ c.length ≤ bs ∧ ∀ p ∈ c, p ∈ l from
    h l.length l le_rfl c hc
  intro n
  induction n with
  | zero =>
    intro l hl c hc
    have : l = [] := List.eq_nil_of_length_eq_zero (by omega)
    subst this
    rw [pyChunks_nil] at hc
    exact absurd hc (List.not_mem_nil c)
  | succ n ih =>
    intro l hl c hc
    cases l with
    | nil =>
      rw [pyChunks_nil] at hc
      exact absurd hc (List.not_mem_nil c)
    | cons x xs =>
      rw [pyChunks_cons bs hbs _ (by simp)] at hc
      rcases List.mem_cons.mp hc with h | h
      · subst h
        refine ⟨?_, ?_, ?_⟩
        · obtain ⟨m, rfl⟩ := Nat.exists_eq_add_of_le hbs
          simp [List.take_cons]
        · rw [List.length_take]
          omega
        · intro p hp
          exact List.take_subset bs (x :: xs) hp
      · obtain ⟨h1, h2, h3⟩ := ih ((x :: xs).drop bs)
          (by simp only [List.length_drop, List.length_cons] at *; omega) c h
        exact ⟨h1, h2, fun p hp => List.drop_subset bs (x :: xs) (h3 p hp)⟩

theorem pyChunks_map_length_120 (l : List α) (h : l.length = 120) :
    (pyChunks 50 l).map List.length = [50, 50, 20] := by
  have h1 : l ≠ [] := by intro e; rw [e] at h; simp at h
  have hd1 : (l.drop 50).length = 70 := by simp [h]
  have h2 : l.drop 50 ≠ [] := by intro e; rw [e] at hd1; simp at hd1
  have hd2 : ((l.drop 50).drop 50).length = 20 := by simp [h]
  have h3 : (l.drop 50).drop 50 ≠ [] := by intro e; rw [e] at hd2; simp at hd2
  have hd3 : (((l.drop 50).drop 50).drop 50) = [] := by
    apply List.eq_nil_of_length_eq_zero
    simp [h]
  rw [pyChunks_cons 50 (by omega) l h1, pyChunks_cons 50 (by omega) _ h2,
    pyChunks_cons 50 (by omega) _ h3, hd3, pyChunks_nil]
  simp only [List.map_cons, List.map_nil, List.length_take]
  rw [h, hd1, hd2]
  norm_num

/-! ## Good-path loop characterization -/

theorem addContactsBulk_good (resps : Nat → TransportResp) (k : Nat)
    (b : List PhoneNumber) (np : Str)
    (hb : b ≠ []) (hb50 : b.length ≤ 50) (hv : ∀ p ∈ b, p.is_valid = true) :
    addContactsBulk true true resps k b 50 np =
      .ok (⟨b.length, (connectedBatchResult np b (resps k)).successful,
            (connectedBatchResult np b (resps k)).failed,
            (connectedBatchResult np b (resps k)).errors,
            (connectedBatchResult np b (resps k)).imported_contacts⟩,
           [Event.call b], k + 1) := by
  have hfil : b.filter (fun p => p.is_valid) = b :=
    List.filter_eq_self.mpr (fun p hp' => by simp [hv p hp'])
  have hch : pyChunks 50 b = [b] := by
    rw [pyChunks_cons 50 (by omega) b hb, List.take_of_length_le hb50,
      List.drop_eq_nil_of_le hb50, pyChunks_nil]
  unfold addContactsBulk
  rw [if_pos rfl]
  simp only [hfil, hch, bulkLoop, addContactsBatch, if_pos rfl,
    if_neg (by omega : ¬ 0 + 50 < b.length)]
  simp

theorem importLoop_good (resps : Nat → TransportResp) (bs total : Nat)
    (chunks : List (List PhoneNumber))
    (hg : ∀ c ∈ chunks, c ≠ [] ∧ c.length ≤ 50 ∧ ∀ p ∈ c, p.is_valid = true) :
    ∀ i bnum k, importLoop true true resps bs total chunks i bnum k =
      goodLoopSpec resps bs total chunks i k := by
  induction chunks with
  | nil => intro i bnum k; rfl
  | cons c cs ih =>
    intro i bnum k
    obtain ⟨h1, h2, h3⟩ := hg c (List.mem_cons_self c cs)
    have hrest : ∀ c' ∈ cs, c' ≠ [] ∧ c'.length ≤ 50 ∧ ∀ p ∈ c', p.is_valid = true :=
      fun c' hc' => hg c' (List.mem_cons_of_mem c hc')
    simp only [importLoop, addContactsBulk_good resps k c ("Contact".toList) h1 h2 h3,
      goodLoopSpec, ih hrest]
    simp

theorem goodLoopSpec_calls (resps : Nat → TransportResp) (bs total : Nat) :
    ∀ chunks i k, callsOf (goodLoopSpec resps bs total chunks i k).evs = chunks := by
  intro chunks
  induction chunks with
  | nil => intro i k; rfl
  | cons c cs ih =>
    intro i k
    simp only [goodLoopSpec, callsOf, List.filterMap_cons, List.filterMap_append]
    have hslp : List.filterMap
        (fun e => match e with | Event.call b => some b | Event.sleep _ => none)
        (if i + bs < total then [Event.sleep 2] else []) = [] := by
      split <;> rfl
    rw [hslp]
    have := ih (i + bs) (k + 1)
    simp only [callsOf] at this
    simp [this]

theorem goodLoopSpec_sleeps (resps : Nat → TransportResp) (bs total : Nat) :
    ∀ chunks i k n, Event.sleep n ∈ (goodLoopSpec resps bs total chunks i k).evs → n = 2 := by
  intro chunks
  induction chunks with
  | nil => intro i k n h; exact absurd h (List.not_mem_nil _)
  | cons c cs ih =>
    intro i k n h
    simp only [goodLoopSpec, List.mem_cons, List.mem_append] at h
    rcases h with h | h | h
    · exact absurd h (by simp)
    · split at h
      · simp at h
        omega
      · exact absurd h (List.not_mem_nil _)
    · exact ih (i + bs) (k + 1) n h

theorem goodLoopSpec_ops_length (resps : Nat → TransportResp) (bs total : Nat) :
    ∀ chunks i k,
      (goodLoopSpec resps bs total chunks i k).ops.length = chunks.flatten.length := by
  intro chunks
  induction chunks with
  | nil => intro i k; rfl
  | cons c cs ih =>
    intro i k
    simp only [goodLoopSpec, List.length_append, List.length_map, List.flatten_cons]
    rw [ih (i + bs) (k + 1)]

theorem goodLoopSpec_errs_mem (resps : Nat → TransportResp) (bs total : Nat) :
    ∀ chunks i k j e, j < chunks.length →
      e ∈ (connectedBatchResult ("Contact".toList) (chunks.getD j [])
        (resps (k + j))).errors →
      e ∈ (goodLoopSpec resps bs total chunks i k).errs := by
  intro chunks
  induction chunks with
  | nil => intro i k j e hj _; simp at hj
  | cons c cs ih =>
    intro i k j e hj he
    cases j with
    | zero =>
      simp only [List.getD_cons_zero] at he
      simp only [Nat.add_zero] at he
      exact List.mem_append_left _ he
    | succ j =>
      simp only [List.getD_cons_succ] at he
      have : k + (j + 1) = (k + 1) + j := by omega
      rw [this] at he
      exact List.mem_append_right _
        (ih (i + bs) (k + 1) j e (by simp at hj; omega) he)

theorem goodLoopSpec_ops_mem (resps : Nat → TransportResp) (bs total : Nat) :
    ∀ chunks i k j p, j < chunks.length → p ∈ chunks.getD j [] →
      opOf (connectedBatchResult ("Contact".toList) (chunks.getD j [])
        (resps (k + j))).imported_contacts p
        ∈ (goodLoopSpec resps bs total chunks i k).ops := by
  intro chunks
  induction chunks with
  | nil => intro i k j p hj _; simp at hj
  | cons c cs ih =>
    intro i k j p hj hp
    cases j with
    | zero =>
      simp only [List.getD_cons_zero] at hp ⊢
      simp only [Nat.add_zero]
      exact List.mem_append_left _ (List.mem_map_of_mem _ hp)
    | succ j =>
      simp only [List.getD_cons_succ] at hp ⊢
      have hk : k + (j + 1) = (k + 1) + j := by omega
      rw [hk]
      exact List.mem_append_right _
        (ih (i + bs) (k + 1) j p (by simp at hj; omega) hp)

theorem importFromFile_loopBranch (env : Env) (skip : Bool) (bs : Nat) (np : Str)
    (records : List PhoneNumber)
    (hp : env.parseResult = .ok records)
    (hv : ∀ p ∈ records, p.is_valid = true)
    (hne : records ≠ [])
    (hded : skip = true →
      records.filter (fun p => decide (p.formatted ∉ getExistingContacts env.lookup))
        = records) :
    importFromFile env skip bs np =
      (let acc := importLoop env.authorized env.connected env.resps bs records.length
         (pyChunks bs records) 0 1 0
       ({ success := decide (0 < acc.succ),
          fullStats := some ⟨(getStats records).total, (getStats records).valid,
            (getStats records).invalid, (getStats records).country_codes,
            records.length, acc.succ, acc.fail,
            if records.length ≠ 0 then (acc.succ : ℚ) / (records.length : ℚ) * 100 else 0⟩,
          errors := some acc.errs,
          operations := some acc.ops }, acc.evs)) := by
  have hfil : records.filter (fun p => p.is_valid) = records :=
    List.filter_eq_self.mpr (fun p hp' => by simp [hv p hp'])
  unfold importFromFile
  rw [hp]
  simp only [hfil]
  rw [if_neg hne]
  cases skip with
  | false =>
    simp only [Bool.false_eq_true, if_false]
    rw [if_neg hne]
  | true =>
    simp only [if_true]
    rw [hded rfl]
    rw [if_neg hne]

/-! ## Normalizer lemmas -/

theorem dropWhile_eq_self_of_all {p : Char → Bool} (l : Str)
    (h : ∀ c ∈ l, p c = false) : l.dropWhile p = l := by
  cases l with
  | nil => rfl
  | cons a as =>
    rw [List.dropWhile_cons, h a (List.mem_cons_self a as)]
    simp

theorem pyStrip_eq_self (l : Str) (h : ∀ c ∈ l, c.isWhitespace = false) :
    pyStrip l = l := by
  unfold pyStrip
  rw [dropWhile_eq_self_of_all l h,
    dropWhile_eq_self_of_all l.reverse (fun c hc => h c (List.mem_reverse.mp hc)),
    List.reverse_reverse]

theorem digit_not_ws (c : Char) (h : c.isDigit = true) : c.isWhitespace = false := by
  by_contra hw
  rw [Bool.not_eq_false] at hw
  simp only [Char.isWhitespace, Bool.or_eq_true, decide_eq_true_eq] at hw
  rcases hw with ((rfl | rfl) | rfl) | rfl <;> exact absurd h (by decide)

theorem digit_ne_strip (c : Char) (h : c.isDigit = true) :
    c ≠ '-' ∧ c ≠ '(' ∧ c ≠ ')' ∧ c ≠ ' ' ∧ c ≠ '.' := by
  refine ⟨?_, ?_, ?_, ?_, ?_⟩ <;> (intro he; subst he; exact absurd h (by decide))

theorem foldl_removeChar_id (rcs : List Char) (l : Str)
    (h : ∀ rc ∈ rcs, ∀ x ∈ l, x ≠ rc) : rcs.foldl removeChar l = l := by
  induction rcs with
  | nil => rfl
  | cons r rs ih =>
    simp only [List.foldl_cons]
    have hr : removeChar l r = l :=
      List.filter_eq_self.mpr (fun a ha => by
        simp [h r (List.mem_cons_self r rs) a ha])
    rw [hr]
    exact ih (fun rc hrc x hx => h rc (List.mem_cons_of_mem r hrc) x hx)

theorem cleanPhoneNumber_plus_digits (d ds : Str)
    (hd : ∀ c ∈ ds, c.isDigit = true) :
    cleanPhoneNumber defaultConfig d ('+' :: ds) = '+' :: ds := by
  have hid : defaultConfig.removeChars.foldl removeChar ('+' :: ds) = '+' :: ds := by
    apply foldl_removeChar_id
    intro rc hrc x hx
    rcases List.mem_cons.mp hx with rfl | hx'
    · simp only [defaultConfig, List.mem_cons, List.not_mem_nil, or_false] at hrc
      rcases hrc with rfl | rfl | rfl | rfl | rfl <;> decide
    · have hne := digit_ne_strip x (hd x hx')
      simp only [defaultConfig, List.mem_cons, List.not_mem_nil, or_false] at hrc
      rcases hrc with rfl | rfl | rfl | rfl | rfl <;> tauto
  simp only [cleanPhoneNumber, hid]
  rw [show ("82102".toList) = ['8', '2', '1', '0', '2'] from rfl]
  simp [List.isPrefixOf, defaultConfig]

theorem probedClean_plus (engine : PhoneEngine) (d ds : Str)
    (hd : ∀ c ∈ ds, c.isDigit = true) :
    probedClean engine defaultConfig d ('+' :: ds) = '+' :: ds := by
  have hstrip : pyStrip ('+' :: ds) = '+' :: ds := by
    apply pyStrip_eq_self
    intro c hc
    rcases List.mem_cons.mp hc with rfl | hc'
    · decide
    · exact digit_not_ws c (hd c hc')
  simp only [probedClean, hstrip, cleanPhoneNumber_plus_digits d ds hd]
  rw [if_neg (by simp [List.isPrefixOf])]

theorem modelParse_plus (ds : Str) (r : Option Str)
    (hd : ∀ c ∈ ds, c.isDigit = true) :
    modelParse ('+' :: ds) r =
      (if ("852".toList).isPrefixOf ds then .ok ⟨852, ds.drop 3⟩
       else if ("82".toList).isPrefixOf ds then .ok ⟨82, ds.drop 2⟩
       else if ("1".toList).isPrefixOf ds then .ok ⟨1, ds.drop 1⟩
       else .error ⟨"(0) Could not interpret numbers after plus-sign.".toList⟩) := by
  have ht : ('+' :: ds).dropWhile (fun c => decide (¬ (c = '+' ∨ c.isDigit = true)))
      = '+' :: ds := by
    rw [List.dropWhile_cons]
    simp
  simp only [modelParse, ht, if_pos rfl]
  rw [List.filter_eq_self.mpr (fun a ha => hd a ha)]
  simp

theorem parseNumber_valid_shape (engine : PhoneEngine) (cfg : ParserConfig) (d s : Str)
    (h : (parseNumber engine cfg d s).is_valid = true) :
    ∃ p, engine.parse (probedClean engine cfg d s) (some d) = .ok p ∧
      engine.isValidNumber p = true ∧
      (parseNumber engine cfg d s).formatted = engine.formatE164 p := by
  simp only [parseNumber, parseNumberBody] at h ⊢
  cases hp : engine.parse (probedClean engine cfg d s) (some d) with
  | error e =>
    rw [hp] at h
    simp at h
  | ok parsed =>
    cases hval : engine.isValidNumber parsed with
    | false =>
      rw [hp] at h
      simp [hval] at h
    | true => exact ⟨parsed, rfl, by simp [hval], by simp [hval]⟩

theorem model_valid_formatE164 (p : ParsedNumber) (h : modelIsValid p = true) :
    isE164 (modelFormat p) = true := by
  obtain ⟨cc, nat⟩ := p
  simp only [modelIsValid] at h
  split_ifs at h with h852 h82 h1
  · subst h852
    cases nat with
    | nil => simp [hkRule] at h
    | cons c rest =>
      simp only [hkRule, Bool.and_eq_true, List.all_cons, decide_eq_true_eq,
        List.length_cons] at h
      obtain ⟨⟨⟨hc, hrest⟩, hlen⟩, hhead⟩ := h
      have hr7 : rest.length = 7 := by omega
      simp only [modelFormat, show natToStr 852 = ['8', '5', '2'] from by decide,
        List.cons_append, List.nil_append]
      rcases hhead with rfl | rfl | rfl | rfl | rfl <;>
        simp [isE164, List.all_eq_true, hrest, hr7]
  · subst h82
    cases nat with
    | nil => simp [krRule] at h
    | cons c rest =>
      simp only [krRule, Bool.and_eq_true, List.all_cons, decide_eq_true_eq,
        List.length_cons] at h
      obtain ⟨⟨⟨hc, hrest⟩, hlen⟩, hhead⟩ := h
      subst hhead
      simp only [modelFormat, show natToStr 82 = ['8', '2'] from by decide,
        List.cons_append, List.nil_append]
      rcases hlen with hl | hl <;>
        simp [isE164, List.all_eq_true, hrest] <;> omega
  · subst h1
    cases nat with
    | nil => simp [nanpRule] at h
    | cons c rest =>
      simp only [nanpRule, Bool.and_eq_true, List.all_cons, decide_eq_true_eq,
        List.length_cons] at h
      obtain ⟨⟨⟨hc, hrest⟩, hlen⟩, hhead⟩ := h
      have hr9 : rest.length = 9 := by omega
      simp only [modelFormat, show natToStr 1 = ['1'] from by decide,
        List.cons_append, List.nil_append]
      simp [isE164, List.all_eq_true, hrest, hr9, hc, hhead]

theorem modelParse_error_msg (s : Str) (r : Option Str) (e : NumberParseError)
    (h : modelParse s r = .error e) : e.msg ≠ [] := by
  simp only [modelParse, modelParseNational] at h
  repeat' split at h
  all_goals try (exfalso; exact Except.noConfusion h)
  all_goals (injection h with h2; subst h2; decide)

theorem parseNumber_invalid_message (engine : PhoneEngine) (cfg : ParserConfig) (d s : Str)
    (hmsg : ∀ s' r e, engine.parse s' r = .error e → e.msg ≠ [])
    (h : (parseNumber engine cfg d s).is_valid = false) :
    ∃ m, (parseNumber engine cfg d s).error_message = some m ∧ m ≠ [] := by
  simp only [parseNumber, parseNumberBody] at h ⊢
  cases hp : engine.parse (probedClean engine cfg d s) (some d) with
  | error e => exact ⟨e.msg, by simp, hmsg _ _ _ hp⟩
  | ok parsed =>
    cases hval : engine.isValidNumber parsed with
    | false =>
      exact ⟨"Invalid phone number format".toList, by simp [hval], by decide⟩
    | true =>
      rw [hp] at h
      simp [hval] at h

theorem model_roundtrip (p : ParsedNumber) (h : modelIsValid p = true) :
    (parseNumber phonenumbersModel defaultConfig ("HK".toList)
      (modelFormat p)).is_valid = true := by
  obtain ⟨cc, nat⟩ := p
  simp only [modelIsValid] at h
  split_ifs at h with h852 h82 h1
  · subst h852
    have hdig : ∀ c ∈ nat, c.isDigit = true := by
      simp only [hkRule, Bool.and_eq_true, List.all_eq_true] at h
      exact fun c hc => h.1.1 c hc
    have hds : ∀ c ∈ (['8', '5', '2'] ++ nat), c.isDigit = true := by
      intro c hc
      rcases List.mem_append.mp hc with hc' | hc'
      · simp only [List.mem_cons, List.not_mem_nil, or_false] at hc'
        rcases hc' with rfl | rfl | rfl <;> decide
      · exact hdig c hc'
    have hfmt : modelFormat ⟨852, nat⟩ = '+' :: (['8', '5', '2'] ++ nat) := by
      simp [modelFormat, show natToStr 852 = ['8', '5', '2'] from by decide]
    rw [hfmt]
    have hpc := probedClean_plus phonenumbersModel ("HK".toList) _ hds
    have hmp : modelParse ('+' :: (['8', '5', '2'] ++ nat)) (some ("HK".toList))
        = .ok ⟨852, nat⟩ := by
      rw [modelParse_plus _ _ hds]
      simp [List.isPrefixOf]
    have hv : modelIsValid ⟨852, nat⟩ = true := by simp [modelIsValid, h]
    simp only [parseNumber, parseNumberBody,
      show phonenumbersModel.parse = modelParse from rfl]
    rw [hpc, hmp]
    simp [show phonenumbersModel.isValidNumber = modelIsValid from rfl, hv]
  · subst h82
    have hdig : ∀ c ∈ nat, c.isDigit = true := by
      simp only [krRule, Bool.and_eq_true, List.all_eq_true] at h
      exact fun c hc => h.1.1 c hc
    have hds : ∀ c ∈ (['8', '2'] ++ nat), c.isDigit = true := by
      intro c hc
      rcases List.mem_append.mp hc with hc' | hc'
      · simp only [List.mem_cons, List.not_mem_nil, or_false] at hc'
        rcases hc' with rfl | rfl <;> decide
      · exact hdig c hc'
    have hfmt : modelFormat ⟨82, nat⟩ = '+' :: (['8', '2'] ++ nat) := by
      simp [modelFormat, show natToStr 82 = ['8', '2'] from by decide]
    rw [hfmt]
    have hpc := probedClean_plus phonenumbersModel ("HK".toList) _ hds
    have hmp : modelParse ('+' :: (['8', '2'] ++ nat)) (some ("HK".toList))
        = .ok ⟨82, nat⟩ := by
      rw [modelParse_plus _ _ hds]
      simp [List.isPrefixOf]
    have hv : modelIsValid ⟨82, nat⟩ = true := by simp [modelIsValid, h]
    simp only [parseNumber, parseNumberBody,
      show phonenumbersModel.parse = modelParse from rfl]
    rw [hpc, hmp]
    simp [show phonenumbersModel.isValidNumber = modelIsValid from rfl, hv]
  · subst h1
    have hdig : ∀ c ∈ nat, c.isDigit = true := by
      simp only [nanpRule, Bool.and_eq_true, List.all_eq_true] at h
      exact fun c hc => h.1.1 c hc
    have hds : ∀ c ∈ (['1'] ++ nat), c.isDigit = true := by
      intro c hc
      rcases List.mem_append.mp hc with hc' | hc'
      · simp only [List.mem_cons, List.not_mem_nil, or_false] at hc'
        rcases hc' with rfl <;> decide
      · exact hdig c hc'
    have hfmt : modelFormat ⟨1, nat⟩ = '+' :: (['1'] ++ nat) := by
      simp [modelFormat, show natToStr 1 = ['1'] from by decide]
    rw [hfmt]
    have hpc := probedClean_plus phonenumbersModel ("HK".toList) _ hds
    have hmp : modelParse ('+' :: (['1'] ++ nat)) (some ("HK".toList))
        = .ok ⟨1, nat⟩ := by
      rw [modelParse_plus _ _ hds]
      simp [List.isPrefixOf]
    have hv : modelIsValid ⟨1, nat⟩ = true := by simp [modelIsValid, h]
    simp only [parseNumber, parseNumberBody,
      show phonenumbersModel.parse = modelParse from rfl]
    rw [hpc, hmp]
    simp [show phonenumbersModel.isValidNumber = modelIsValid from rfl, hv]

/-! ## Claim theorems -/

/-- Claim C1: the claim says normalizing `"821020131384"` with default region
"HK" applies the `82102` rewrite and yields the `+852` form.  The code
instead prepends `+` in the earlier international heuristic (the string is 12
characters long and starts with `8`), so the `82102` branch never fires and
the string is parsed as a valid `+82` (South Korea) number — contradicting
the inline comments of `_clean_phone_number`, which document the `+852`
conversion.  This theorem evaluates the code at the failing input. -/
theorem c1_82102_input_takes_plus82_path :
    cleanPhoneNumber defaultConfig ("HK".toList) ("821020131384".toList)
      = "+821020131384".toList ∧
    parseNumber phonenumbersModel defaultConfig ("HK".toList) ("821020131384".toList) =
      ⟨"821020131384".toList, "+821020131384".toList, "+82".toList, true, none⟩ ∧
    (parseNumber phonenumbersModel defaultConfig ("HK".toList)
      ("821020131384".toList)).country_code ≠ "+852".toList := by decide

/-- Claim C3 (counterexample): the invalid record for input `"abc"` keeps the
cleaned string `"abc"` in its formatted/e164 field — the field is not empty,
refuting the claim's "empty e164" half. -/
theorem c3_counterexample_invalid_formatted_nonempty :
    (parseNumber phonenumbersModel defaultConfig ("HK".toList) ("abc".toList)).is_valid
      = false ∧
    (parseNumber phonenumbersModel defaultConfig ("HK".toList) ("abc".toList)).formatted
      ≠ [] := by decide

/-- Claim C3 (amended): every record the normalizer marks valid has a
formatted/e164 field matching the E.164 shape, and every invalid record has a
non-empty error reason — but its formatted field retains the cleaned display
string instead of being empty. -/
theorem c3_valid_e164_invalid_reasoned (s : Str) :
    ((parseNumber phonenumbersModel defaultConfig ("HK".toList) s).is_valid = true →
      isE164 (parseNumber phonenumbersModel defaultConfig ("HK".toList) s).formatted
        = true) ∧
    ((parseNumber phonenumbersModel defaultConfig ("HK".toList) s).is_valid = false →
      ∃ m, (parseNumber phonenumbersModel defaultConfig ("HK".toList) s).error_message
        = some m ∧ m ≠ []) := by
  constructor
  · intro h
    obtain ⟨p, hp, hval, hfmt⟩ :=
      parseNumber_valid_shape phonenumbersModel defaultConfig ("HK".toList) s h
    rw [hfmt]
    exact model_valid_formatE164 p hval
  · intro h
    exact parseNumber_invalid_message phonenumbersModel defaultConfig ("HK".toList) s
      (fun s' r e he => modelParse_error_msg s' r e he) h

/-- Claim C3 (witness): both halves of the amended claim at concrete inputs. -/
theorem c3_witness :
    isE164 (parseNumber phonenumbersModel defaultConfig ("HK".toList)
      ("+85221234567".toList)).formatted = true ∧
    (∃ m, (parseNumber phonenumbersModel defaultConfig ("HK".toList)
      ("abc".toList)).error_message = some m ∧ m ≠ []) :=
  ⟨(c3_valid_e164_invalid_reasoned ("+85221234567".toList)).1 (by decide),
   (c3_valid_e164_invalid_reasoned ("abc".toList)).2 (by decide)⟩

/-- Claim C7: feeding a valid record's formatted E.164 string back into the
same normalizer (same configuration and default country) yields a valid
record again. -/
theorem c7_e164_roundtrip_stable (s : Str)
    (h : (parseNumber phonenumbersModel defaultConfig ("HK".toList) s).is_valid = true) :
    (parseNumber phonenumbersModel defaultConfig ("HK".toList)
      (parseNumber phonenumbersModel defaultConfig ("HK".toList) s).formatted).is_valid
      = true := by
  obtain ⟨p, hp, hval, hfmt⟩ :=
    parseNumber_valid_shape phonenumbersModel defaultConfig ("HK".toList) s h
  rw [hfmt]
  exact model_roundtrip p hval

/-- Claim C7 (witness): the round trip at a concrete valid Hong Kong number. -/
theorem c7_witness :
    (parseNumber phonenumbersModel defaultConfig ("HK".toList)
      (parseNumber phonenumbersModel defaultConfig ("HK".toList)
        ("+85221234567".toList)).formatted).is_valid = true :=
  c7_e164_roundtrip_stable ("+85221234567".toList) (by decide)

/-- Claim C9: `parse_number`, with its exception handling made explicit, is
total for every engine and input: the checked computation always returns a
record (never propagates an exception), the record is the one `parse_number`
returns, and any failure is converted into an invalid record carrying an
error message. -/
theorem c9_parse_number_total (engine : PhoneEngine) (cfg : ParserConfig) (d s : Str) :
    ∃ r, parseNumberChecked engine cfg d s = .ok r ∧
      parseNumber engine cfg d s = r ∧
      (r.is_valid = false → ∃ m, r.error_message = some m) := by
  refine ⟨parseNumber engine cfg d s, ?_, rfl, ?_⟩
  · cases hb : parseNumberBody engine cfg d s with
    | ok r => simp [parseNumberChecked, parseNumber, hb]
    | error e => simp [parseNumberChecked, parseNumber, hb]
  · intro hinv
    simp only [parseNumber, parseNumberBody] at hinv ⊢
    cases hp : engine.parse (probedClean engine cfg d s) (some d) with
    | error e => exact ⟨e.msg, by simp⟩
    | ok parsed =>
      cases hval : engine.isValidNumber parsed with
      | false => exact ⟨"Invalid phone number format".toList, by simp [hval]⟩
      | true =>
        rw [hp] at hinv
        simp [hval] at hinv

/-- Claim C9 (witness): the totality statement instantiated at the concrete
model and the input `"abc"`. -/
theorem c9_witness :
    ∃ r, parseNumberChecked phonenumbersModel defaultConfig ("HK".toList)
        ("abc".toList) = .ok r ∧
      parseNumber phonenumbersModel defaultConfig ("HK".toList) ("abc".toList) = r ∧
      (r.is_valid = false → ∃ m, r.error_message = some m) :=
  c9_parse_number_total phonenumbersModel defaultConfig ("HK".toList) ("abc".toList)

/-- Claim C4: with 120 valid records and batch size 50, the orchestrator
issues exactly 3 wire import calls with batch sizes 50, 50, 20, in order,
and the concatenation of the batches is the input list. -/
theorem c4_batches_50_50_20 (env : Env) (records : List PhoneNumber) (np : Str)
    (hp : env.parseResult = .ok records)
    (hlen : records.length = 120)
    (hv : ∀ p ∈ records, p.is_valid = true)
    (hauth : env.authorized = true) (hconn : env.connected = true) :
    (callsOf (importFromFile env false 50 np).2).length = 3 ∧
    (callsOf (importFromFile env false 50 np).2).map List.length = [50, 50, 20] ∧
    (callsOf (importFromFile env false 50 np).2).flatten = records := by
  have hne : records ≠ [] := by
    intro e
    rw [e] at hlen
    simp at hlen
  have hrw := importFromFile_loopBranch env false 50 np records hp hv hne (by simp)
  simp only [hrw]
  have hg : ∀ c ∈ pyChunks 50 records,
      c ≠ [] ∧ c.length ≤ 50 ∧ ∀ p ∈ c, p.is_valid = true := by
    intro c hc
    obtain ⟨h1, h2, h3⟩ := pyChunks_mem 50 (by omega) records c hc
    exact ⟨h1, h2, fun p hp' => hv p (h3 p hp')⟩
  rw [hauth, hconn,
    importLoop_good env.resps 50 records.length (pyChunks 50 records) hg 0 1 0,
    goodLoopSpec_calls]
  refine ⟨?_, pyChunks_map_length_120 records hlen,
    pyChunks_flatten 50 (by omega) records⟩
  have hml := pyChunks_map_length_120 records hlen
  have : ((pyChunks 50 records).map List.length).length = 3 := by rw [hml]; rfl
  simpa using this

/-- Claim C4 (witness): the batch shape at a concrete 120-record input. -/
theorem c4_witness :
    (callsOf (importFromFile c4Env false 50 ("Contact".toList)).2).length = 3 ∧
    (callsOf (importFromFile c4Env false 50 ("Contact".toList)).2).map List.length
      = [50, 50, 20] ∧
    (callsOf (importFromFile c4Env false 50 ("Contact".toList)).2).flatten
      = c4Records :=
  c4_batches_50_50_20 c4Env c4Records ("Contact".toList) rfl (by decide) (by decide)
    rfl rfl

/-- Claim C5 (counterexample): a run with a connected, authorized client
whose single batch fails with a transport error returns `success = false` —
a per-batch transport failure does surface as a run-level failure, refuting
"fails only on unrecoverable setup errors". -/
theorem c5_counterexample_batch_failure_fails_run :
    cexC6Env.authorized = true ∧ cexC6Env.connected = true ∧
    (importFromFile cexC6Env false 50 ("Contact".toList)).1.success = false := by decide

/-- Claim C5 (amended): in the batch-processing path the run-level `success`
flag equals "at least one record was imported"; a run whose batches all fail
therefore reports failure even though setup succeeded, and only the early
returns (file-parse failure, no valid numbers, all contacts existing) decide
`success` differently. -/
theorem c5_success_iff_some_import (env : Env) (records : List PhoneNumber)
    (bs : Nat) (np : Str)
    (hp : env.parseResult = .ok records)
    (hv : ∀ p ∈ records, p.is_valid = true)
    (hne : records ≠ []) :
    ∃ fs, (importFromFile env false bs np).1.fullStats = some fs ∧
      ((importFromFile env false bs np).1.success = true ↔ 0 < fs.successful) := by
  have hrw := importFromFile_loopBranch env false bs np records hp hv hne (by simp)
  simp only [hrw]
  exact ⟨_, rfl, by simp⟩

/-- Claim C5 (witness): the amended statement at a concrete run. -/
theorem c5_witness :
    ∃ fs, (importFromFile c4Env false 50 ("Contact".toList)).1.fullStats = some fs ∧
      ((importFromFile c4Env false 50 ("Contact".toList)).1.success = true ↔
        0 < fs.successful) :=
  c5_success_iff_some_import c4Env c4Records 50 ("Contact".toList) rfl (by decide)
    (by decide)

/-- Claim C2 (counterexample): in a three-batch run whose second wire call is
rate limited with `waitSeconds = 5`, the trace shows the fixed 2-second
pacing sleep — not a 5-second backoff — before the third call, refuting the
claimed N-unit delay.  The errors list does carry the rate-limit entry. -/
theorem c2_counterexample_no_backoff_sleep :
    (importFromFile cexC2Env false 1 ("Contact".toList)).2 =
      [Event.call [tRec], Event.sleep 2, Event.call [tRec], Event.sleep 2,
        Event.call [tRec]] ∧
    rateLimitMsg 5 ∈ ((importFromFile cexC2Env false 1 ("Contact".toList)).1.errors.getD []) ∧
    Event.sleep 5 ∉ (importFromFile cexC2Env false 1 ("Contact".toList)).2 := by decide

/-- Claim C2 (amended): when the `j`-th wire call is rate limited with
`waitSeconds = n`, the run's errors list contains the
`"Rate limited: wait n seconds"` entry and every member of that batch is
recorded as failed with the generic "Import failed" reason; no sleep of `n`
units happens — every sleep in the trace is the fixed 2-second inter-batch
pacing delay. -/
theorem c2_rate_limit_recorded_but_fixed_delay (env : Env)
    (records : List PhoneNumber) (np : Str) (bs n j : Nat)
    (hp : env.parseResult = .ok records)
    (hv : ∀ p ∈ records, p.is_valid = true)
    (hne : records ≠ [])
    (hauth : env.authorized = true) (hconn : env.connected = true)
    (hbs1 : 1 ≤ bs) (hbs50 : bs ≤ 50)
    (hj : j < (pyChunks bs records).length)
    (hfw : env.resps j = .floodWait n) :
    rateLimitMsg n ∈ ((importFromFile env false bs np).1.errors.getD []) ∧
    (∀ p ∈ (pyChunks bs records).getD j [],
      (⟨p, false, some importFailedMsg⟩ : ContactOperation)
        ∈ ((importFromFile env false bs np).1.operations.getD [])) ∧
    (∀ m, Event.sleep m ∈ (importFromFile env false bs np).2 → m = 2) := by
  have hrw := importFromFile_loopBranch env false bs np records hp hv hne (by simp)
  simp only [hrw]
  have hg : ∀ c ∈ pyChunks bs records,
      c ≠ [] ∧ c.length ≤ 50 ∧ ∀ p ∈ c, p.is_valid = true := by
    intro c hc
    obtain ⟨h1, h2, h3⟩ := pyChunks_mem bs hbs1 records c hc
    exact ⟨h1, le_trans h2 hbs50, fun p hp' => hv p (h3 p hp')⟩
  rw [hauth, hconn,
    importLoop_good env.resps bs records.length (pyChunks bs records) hg 0 1 0]
  refine ⟨?_, ?_, ?_⟩
  · apply goodLoopSpec_errs_mem env.resps bs records.length (pyChunks bs records)
      0 0 j (rateLimitMsg n) hj
    rw [Nat.zero_add, hfw]
    simp [connectedBatchResult]
  · intro p hp'
    have hop := goodLoopSpec_ops_mem env.resps bs records.length
      (pyChunks bs records) 0 0 j p hj hp'
    rw [Nat.zero_add, hfw] at hop
    simpa [connectedBatchResult, opOf] using hop
  · intro m hm
    exact goodLoopSpec_sleeps env.resps bs records.length (pyChunks bs records)
      0 0 m hm

/-- Claim C2 (witness): the amended statement at the concrete rate-limited
run. -/
theorem c2_witness :
    rateLimitMsg 5 ∈ ((importFromFile cexC2Env false 1 ("Contact".toList)).1.errors.getD []) ∧
    (∀ p ∈ (pyChunks 1 [tRec, tRec, tRec]).getD 1 [],
      (⟨p, false, some importFailedMsg⟩ : ContactOperation)
        ∈ ((importFromFile cexC2Env false 1 ("Contact".toList)).1.operations.getD [])) ∧
    (∀ m, Event.sleep m ∈ (importFromFile cexC2Env false 1 ("Contact".toList)).2 →
      m = 2) :=
  c2_rate_limit_recorded_but_fixed_delay cexC2Env [tRec, tRec, tRec]
    ("Contact".toList) 1 5 1 rfl (by decide) (by decide) rfl rfl (by decide)
    (by decide) (by decide) rfl

/-- Claim C6 (counterexample): when the only wire call raises
"Connection reset", the run's errors list carries that text but the ledger
entry for the batch member carries the generic "Import failed" — not the
exception's error text — refuting the claim that the text is attached to
every member record in the ledger. -/
theorem c6_counterexample_ledger_has_generic_reason :
    (importFromFile cexC6Env false 50 ("Contact".toList)).1.errors
      = some ["Connection reset".toList] ∧
    (importFromFile cexC6Env false 50 ("Contact".toList)).1.operations
      = some [⟨tRec, false, some importFailedMsg⟩] ∧
    (⟨tRec, false, some ("Connection reset".toList)⟩ : ContactOperation)
      ∉ ((importFromFile cexC6Env false 50 ("Contact".toList)).1.operations.getD [])
      := by decide

/-- Claim C6 (amended): when the `j`-th wire call raises a batch-level
exception with text `m` (not mentioning "bot"), the transport wrapper
absorbs it: `m` appears in the run's errors list, every member of that batch
is recorded in the ledger as failed — with the generic "Import failed"
reason rather than `m` — the ledger has one entry per input record (no
outcome is dropped), and processing continues: every batch still gets its
wire call. -/
theorem c6_batch_exception_all_failed_continues (env : Env)
    (records : List PhoneNumber) (np m : Str) (bs j : Nat)
    (hp : env.parseResult = .ok records)
    (hv : ∀ p ∈ records, p.is_valid = true)
    (hne : records ≠ [])
    (hauth : env.authorized = true) (hconn : env.connected = true)
    (hbs1 : 1 ≤ bs) (hbs50 : bs ≤ 50)
    (hj : j < (pyChunks bs records).length)
    (hexc : env.resps j = .exc m)
    (hbot : decide (List.IsInfix ("bot".toList) (m.map Char.toLower)) = false) :
    m ∈ ((importFromFile env false bs np).1.errors.getD []) ∧
    (∀ p ∈ (pyChunks bs records).getD j [],
      (⟨p, false, some importFailedMsg⟩ : ContactOperation)
        ∈ ((importFromFile env false bs np).1.operations.getD [])) ∧
    ((importFromFile env false bs np).1.operations.getD []).length = records.length ∧
    callsOf (importFromFile env false bs np).2 = pyChunks bs records := by
  have hrw := importFromFile_loopBranch env false bs np records hp hv hne (by simp)
  simp only [hrw]
  have hg : ∀ c ∈ pyChunks bs records,
      c ≠ [] ∧ c.length ≤ 50 ∧ ∀ p ∈ c, p.is_valid = true := by
    intro c hc
    obtain ⟨h1, h2, h3⟩ := pyChunks_mem bs hbs1 records c hc
    exact ⟨h1, le_trans h2 hbs50, fun p hp' => hv p (h3 p hp')⟩
  rw [hauth, hconn,
    importLoop_good env.resps bs records.length (pyChunks bs records) hg 0 1 0]
  refine ⟨?_, ?_, ?_, ?_⟩
  · have hbot' : ¬ List.IsInfix ['b', 'o', 't'] (m.map Char.toLower) :=
      of_decide_eq_false hbot
    apply goodLoopSpec_errs_mem env.resps bs records.length (pyChunks bs records)
      0 0 j m hj
    rw [Nat.zero_add, hexc]
    simp [connectedBatchResult, hbot']
  · intro p hp'
    have hop := goodLoopSpec_ops_mem env.resps bs records.length
      (pyChunks bs records) 0 0 j p hj hp'
    rw [Nat.zero_add, hexc] at hop
    simpa [connectedBatchResult, opOf] using hop
  · simp only [Option.getD_some]
    rw [goodLoopSpec_ops_length, pyChunks_flatten bs hbs1]
  · exact goodLoopSpec_calls env.resps bs records.length (pyChunks bs records) 0 0

/-- Claim C6 (witness): the amended statement at the concrete run with a
"Connection reset" transport exception. -/
theorem c6_witness :
    ("Connection reset".toList)
      ∈ ((importFromFile cexC6Env false 50 ("Contact".toList)).1.errors.getD []) ∧
    (∀ p ∈ (pyChunks 50 [tRec]).getD 0 [],
      (⟨p, false, some importFailedMsg⟩ : ContactOperation)
        ∈ ((importFromFile cexC6Env false 50 ("Contact".toList)).1.operations.getD [])) ∧
    ((importFromFile cexC6Env false 50 ("Contact".toList)).1.operations.getD []).length
      = ([tRec] : List PhoneNumber).length ∧
    callsOf (importFromFile cexC6Env false 50 ("Contact".toList)).2
      = pyChunks 50 [tRec] :=
  c6_batch_exception_all_failed_continues cexC6Env [tRec] ("Contact".toList)
    ("Connection reset".toList) 50 0 rfl (by decide) (by decide) rfl rfl
    (by decide) (by decide) (by decide) rfl (by decide)

/-- Claim C8: when the existing-contacts lookup fails, the run behaves
exactly as if the existing set were empty — the whole result and trace
coincide with those of a run whose lookup returned no contacts — and all
valid candidates are submitted without deduplication (the concatenation of
the issued batches is the full candidate list); the run is not aborted. -/
theorem c8_lookup_failure_degrades_to_no_dedup (env : Env)
    (records : List PhoneNumber) (e np : Str) (bs : Nat)
    (hp : env.parseResult = .ok records)
    (hlk : env.lookup = .error e)
    (hv : ∀ p ∈ records, p.is_valid = true)
    (hne : records ≠ [])
    (hauth : env.authorized = true) (hconn : env.connected = true)
    (hbs1 : 1 ≤ bs) (hbs50 : bs ≤ 50) :
    importFromFile env true bs np =
      importFromFile ⟨env.parseResult, .ok [], env.connected, env.authorized,
        env.resps⟩ true bs np ∧
    (callsOf (importFromFile env true bs np).2).flatten = records := by
  constructor
  · have h1 : getExistingContacts env.lookup = [] := by
      rw [hlk]
      rfl
    have h2 : getExistingContacts (Env.mk env.parseResult (.ok []) env.connected
        env.authorized env.resps).lookup = [] := rfl
    simp only [importFromFile, h1, h2]
  · have hded : records.filter
        (fun p => decide (p.formatted ∉ getExistingContacts env.lookup)) = records := by
      apply List.filter_eq_self.mpr
      intro a ha
      rw [hlk]
      simp [getExistingContacts]
    have hrw := importFromFile_loopBranch env true bs np records hp hv hne
      (fun _ => hded)
    simp only [hrw]
    have hg : ∀ c ∈ pyChunks bs records,
        c ≠ [] ∧ c.length ≤ 50 ∧ ∀ p ∈ c, p.is_valid = true := by
      intro c hc
      obtain ⟨hh1, hh2, hh3⟩ := pyChunks_mem bs hbs1 records c hc
      exact ⟨hh1, le_trans hh2 hbs50, fun p hp' => hv p (hh3 p hp')⟩
    rw [hauth, hconn,
      importLoop_good env.resps bs records.length (pyChunks bs records) hg 0 1 0,
      goodLoopSpec_calls]
    exact pyChunks_flatten bs hbs1 records

/-- Claim C8 (witness): the degradation at a concrete run whose lookup
raises. -/
theorem c8_witness :
    importFromFile c8Env true 50 ("Contact".toList) =
      importFromFile ⟨c8Env.parseResult, .ok [], c8Env.connected, c8Env.authorized,
        c8Env.resps⟩ true 50 ("Contact".toList) ∧
    (callsOf (importFromFile c8Env true 50 ("Contact".toList)).2).flatten
      = [tRec] :=
  c8_lookup_failure_degrades_to_no_dedup c8Env [tRec] ("boom".toList)
    ("Contact".toList) 50 rfl rfl (by decide) (by decide) rfl rfl (by decide)
    (by decide)

/-- Claim C10: with deduplication enabled, at least one valid candidate, and
every valid candidate already among the existing contacts, the run returns
`success = true` with an empty operations list and the message "All contacts
already exist", and the trace is empty — no remote import call is made. -/
theorem c10_all_existing_short_circuit (env : Env) (records : List PhoneNumber)
    (bs : Nat) (np : Str)
    (hp : env.parseResult = .ok records)
    (hvne : records.filter (fun p => p.is_valid) ≠ [])
    (hall : ∀ p ∈ records.filter (fun p => p.is_valid),
      p.formatted ∈ getExistingContacts env.lookup) :
    (importFromFile env true bs np).1.success = true ∧
    (importFromFile env true bs np).1.operations = some [] ∧
    (importFromFile env true bs np).1.message
      = some ("All contacts already exist".toList) ∧
    (importFromFile env true bs np).2 = [] := by
  have hnil : (records.filter (fun p => p.is_valid)).filter
      (fun p => decide (p.formatted ∉ getExistingContacts env.lookup)) = [] := by
    rw [List.filter_eq_nil_iff]
    intro a ha
    simp [hall a ha]
  unfold importFromFile
  rw [hp]
  simp only [if_true]
  rw [if_neg hvne, hnil]
  simp

/-- Claim C10 (witness): the short circuit at a concrete run whose only
candidate is already a contact. -/
theorem c10_witness :
    (importFromFile c10Env true 50 ("Contact".toList)).1.success = true ∧
    (importFromFile c10Env true 50 ("Contact".toList)).1.operations = some [] ∧
    (importFromFile c10Env true 50 ("Contact".toList)).1.message
      = some ("All contacts already exist".toList) ∧
    (importFromFile c10Env true 50 ("Contact".toList)).2 = [] :=
  c10_all_existing_short_circuit c10Env [tRec] 50 ("Contact".toList) rfl
    (by decide) (by decide)
